import Mathlib

/-! Shallow embedding of libavfilter/af_waveformdata.c (FFmpeg filter
"waveformdata"): a streaming audio peak extractor that reduces a 32-bit float
sample stream into per-window min/max pairs and serializes them into a
peaks.js compatible binary waveform-data file.

Modelling conventions:
* float / double sample and option values are modelled as exact rationals.
  Every numeric computation the claims exercise (strict comparisons in
  min/max tracking, scaling by SHRT_MAX = 32767 / CHAR_MAX = 127, rounding at
  the concrete inputs used by witnesses) is exact in IEEE float32 as well.
* machine integers are Nat / Int with explicit wrap-around (mod 2 ^ w) where
  the C code truncates: the (uint32_t) cast in uninit and the
  (int16_t) / (int8_t) casts in write_data_point.
* the AVIOContext byte sink is a byte list plus a write position; avio writes
  overwrite in place and extend at the end of the buffer, avio_seek moves the
  position (the code seeks only in uninit, to byte offset 16).
* av_calloc zero-initialization of the per-channel statistics gives
  ChannelStats (0, 0).
* the planar processing loop of filter_frame is a for-loop whose counter
  advances by tc_samples per iteration; it is embedded with an explicit fuel
  argument (nb_samples + 1 iterations always suffice when tc_samples is at
  least 1, which holds for every configuration the options allow except the
  degenerate lrint result 0, where the C loop would not terminate either).
-/

/-- Little-endian byte serialization of the low 32 bits of a natural number,
as written by avio_wl32. -/
def le32Bytes (v : ℕ) : List ℕ :=
  [v % 256, v / 256 % 256, v / 2 ^ 16 % 256, v / 2 ^ 24 % 256]

/-- Little-endian byte serialization of the low 16 bits of an integer, as
written by avio_wl16 (the argument is converted to unsigned first). -/
def le16Bytes (v : ℤ) : List ℕ :=
  [(v % 2 ^ 16).toNat % 256, (v % 2 ^ 16).toNat / 256]

/-- The single byte written by avio_w8 (low 8 bits of the argument). -/
def le8Bytes (v : ℤ) : List ℕ :=
  [(v % 2 ^ 8).toNat]

/-- AVIOContext model: the bytes written so far and the current write
position.  In every run of the filter the position stays at the end of the
buffer except for the single seek to offset 16 in uninit. -/
@[ext]
structure AvioFile where
  bytes : List ℕ
  pos : ℕ
deriving DecidableEq, Repr

/-- Overwrite-or-extend semantics of a buffered byte sink: writing bs at
position p replaces the bytes at [p, p + |bs|) and extends the buffer when
the range reaches past the current end. -/
def writeBytesAt (l : List ℕ) (p : ℕ) (bs : List ℕ) : List ℕ :=
  l.take p ++ bs ++ l.drop (p + bs.length)

/-- One avio write: store the bytes at the current position and advance it. -/
def avio_write (f : AvioFile) (bs : List ℕ) : AvioFile :=
  ⟨writeBytesAt f.bytes f.pos bs, f.pos + bs.length⟩

/-- avio_wl32: write a 32-bit value little-endian. -/
def avio_wl32 (f : AvioFile) (v : ℕ) : AvioFile :=
  avio_write f (le32Bytes v)

/-- avio_wl16: write a 16-bit value little-endian. -/
def avio_wl16 (f : AvioFile) (v : ℤ) : AvioFile :=
  avio_write f (le16Bytes v)

/-- avio_w8: write a single byte. -/
def avio_w8 (f : AvioFile) (v : ℤ) : AvioFile :=
  avio_write f (le8Bytes v)

/-- The two values of the "bits" option (OUTPUT_BITS_8 / OUTPUT_BITS_16). -/
inductive OutputBits
  | bits8
  | bits16
deriving DecidableEq, Repr

/-- The two sample formats the filter accepts
(AV_SAMPLE_FMT_FLTP planar / AV_SAMPLE_FMT_FLT interleaved). -/
inductive SampleFmt
  | fltp
  | flt
deriving DecidableEq, Repr

/-- ChannelStats: running min / max of the current window for one channel. -/
@[ext]
structure ChannelStats where
  min : ℚ
  max : ℚ
deriving DecidableEq, Repr

/-- WaveFormDataContext: the private state of the filter.  file_str is
reduced to the Boolean has_file below (init either opens a sink or leaves
avio_context NULL); the AVClass pointer carries no semantics. -/
@[ext]
structure WaveFormDataContext where
  time_constant : ℚ
  output_bits : OutputBits
  avio_context : Option AvioFile
  chstats : List ChannelStats
  nb_channels : ℕ
  tc_samples : ℕ
  window_pos : ℕ
  total_blocks : ℕ
deriving DecidableEq, Repr

/-- An input AVFrame: sample count, sample format, and the sample data as a
function from plane index and intra-plane index to the sample value (for
planar frames plane c holds channel c; interleaved frames use plane 0 with
index i * channels + c). -/
structure AVFrame where
  nb_samples : ℕ
  format : SampleFmt
  data : ℕ → ℕ → ℚ

/-- Wrap an integer to the range of int16_t, as the C cast (int16_t) does on
the (two-complement) target implementations FFmpeg supports. -/
def int16_of (v : ℤ) : ℤ :=
  (v + 2 ^ 15) % 2 ^ 16 - 2 ^ 15

/-- Wrap an integer to the range of int8_t. -/
def int8_of (v : ℤ) : ℤ :=
  (v + 2 ^ 7) % 2 ^ 8 - 2 ^ 7

/-- roundf: round to nearest, ties away from zero. -/
def roundf (q : ℚ) : ℤ :=
  if q < 0 then -⌊-q + 1 / 2⌋ else ⌊q + 1 / 2⌋

/-- lrint under the default rounding mode: round to nearest, ties to even. -/
def lrint (q : ℚ) : ℤ :=
  if q - ⌊q⌋ < 1 / 2 then ⌊q⌋
  else if 1 / 2 < q - ⌊q⌋ then ⌊q⌋ + 1
  else if 2 ∣ ⌊q⌋ then ⌊q⌋ else ⌊q⌋ + 1

/-- init: the filter state after the init callback ran with the given option
values.  If a file option was supplied, avio_open produced a fresh writable
sink (open failure aborts the stream before any state exists and is not
modelled); otherwise avio_context stays NULL.  The remaining fields are the
zero state the framework allocates priv with. -/
def init (time_constant : ℚ) (output_bits : OutputBits) (has_file : Bool) :
    WaveFormDataContext :=
  { time_constant := time_constant
    output_bits := output_bits
    avio_context := if has_file then some ⟨[], 0⟩ else none
    chstats := []
    nb_channels := 0
    tc_samples := 0
    window_pos := 0
    total_blocks := 0 }

/-- config_output: allocate the zeroed per-channel statistics, derive
tc_samples = lrint(time_constant * sample_rate), reset the window state, and,
if a sink is open, write the file header
(version, flags, sample_rate, samples_per_pixel, data-point count
placeholder, and the channel count when nb_channels > 1). -/
def config_output (s : WaveFormDataContext) (sample_rate nb_channels : ℕ) :
    WaveFormDataContext :=
  let s1 := { s with
    chstats := List.replicate nb_channels ⟨0, 0⟩
    nb_channels := nb_channels
    tc_samples := (lrint (s.time_constant * sample_rate)).toNat
    window_pos := 0
    total_blocks := 0 }
  match s1.avio_context with
  | none => s1
  | some f =>
      let f := avio_wl32 f (if 1 < s1.nb_channels then 2 else 1)
      let f := avio_wl32 f (if s1.output_bits = OutputBits.bits8 then 1 else 0)
      let f := avio_wl32 f sample_rate
      let f := avio_wl32 f s1.tc_samples
      let f := avio_wl32 f 0
      let f := if 1 < s1.nb_channels then avio_wl32 f s1.nb_channels else f
      { s1 with avio_context := some f }

/-- write_data_point: quantize one (min, max) pair and append it to the sink,
min first, each value as a little-endian signed integer of the configured
width; with no sink open it is a no-op. -/
def write_data_point (s : WaveFormDataContext) (mn mx : ℚ) :
    WaveFormDataContext :=
  match s.avio_context with
  | none => s
  | some f =>
      match s.output_bits with
      | OutputBits.bits16 =>
          let f := avio_wl16 f (int16_of (roundf (mn * 32767)))
          let f := avio_wl16 f (int16_of (roundf (mx * 32767)))
          { s with avio_context := some f }
      | OutputBits.bits8 =>
          let f := avio_w8 f (int8_of (roundf (mn * 127)))
          let f := avio_w8 f (int8_of (roundf (mx * 127)))
          { s with avio_context := some f }

/-- finish_block: for every channel in order, emit its (min, max) point and
reset its accumulator to (0, 0); then reset window_pos and count the
completed block once. -/
def finish_block (s : WaveFormDataContext) : WaveFormDataContext :=
  let s1 := (List.range s.nb_channels).foldl (fun t c =>
    let p := t.chstats.getD c ⟨0, 0⟩
    let t1 := write_data_point t p.min p.max
    { t1 with chstats := t1.chstats.set c ⟨0, 0⟩ }) s
  { s1 with window_pos := 0, total_blocks := s1.total_blocks + 1 }

/-- update_stat: strict-comparison min / max update (the C function also
receives the context pointer but does not use it). -/
def update_stat (p : ChannelStats) (sample : ℚ) : ChannelStats :=
  let p1 := if sample > p.max then { p with max := sample } else p
  if sample < p1.min then { p1 with min := sample } else p1

/-- The planar (AV_SAMPLE_FMT_FLTP) loop of filter_frame: starting at sample
index proc_smpl, clip the chunk end to the buffer, fold update_stat over the
chunk for every channel, set window_pos to the chunk length, finish the block
when it equals tc_samples, and advance by tc_samples.  fuel bounds the number
of iterations (see the file header). -/
def planar_loop (channels nb : ℕ) (data : ℕ → ℕ → ℚ) :
    ℕ → ℕ → WaveFormDataContext → WaveFormDataContext
  | 0, _, s => s
  | fuel + 1, proc_smpl, s =>
      if proc_smpl < nb then
        let window_end := min (proc_smpl + s.tc_samples) nb
        let s1 := (List.range channels).foldl (fun t c =>
          let p := ((List.range' proc_smpl (window_end - proc_smpl)).map (data c)).foldl
            update_stat (t.chstats.getD c ⟨0, 0⟩)
          { t with chstats := t.chstats.set c p }) s
        let s2 := { s1 with window_pos := window_end - proc_smpl }
        let s3 := if s2.window_pos = s2.tc_samples then finish_block s2 else s2
        planar_loop channels nb data fuel (proc_smpl + s.tc_samples) s3
      else s

/-- filter_frame: dispatch on the sample format, run the windowed reduction,
and forward the unmodified input frame downstream
(ff_filter_frame(outputs[0], buf)). -/
def filter_frame (s : WaveFormDataContext) (buf : AVFrame) :
    WaveFormDataContext × AVFrame :=
  let channels := s.nb_channels
  let s1 :=
    match buf.format with
    | SampleFmt.fltp =>
        planar_loop channels buf.nb_samples buf.data (buf.nb_samples + 1) 0 s
    | SampleFmt.flt =>
        (List.range buf.nb_samples).foldl (fun t i =>
          let t1 := (List.range channels).foldl (fun u c =>
            let p := update_stat (u.chstats.getD c ⟨0, 0⟩) (buf.data 0 (i * channels + c))
            { u with chstats := u.chstats.set c p }) t
          let t2 := { t1 with window_pos := t1.window_pos + 1 }
          if t2.window_pos = t2.tc_samples then finish_block t2 else t2) s
  (s1, buf)

/-- Push a sequence of frames through filter_frame. -/
def runFrames (s : WaveFormDataContext) (frames : List AVFrame) :
    WaveFormDataContext :=
  frames.foldl (fun t buf => (filter_frame t buf).1) s

/-- uninit: flush a partial window if one is pending, then, if a sink is
open, seek to byte offset 16, patch the data-point count field with the
block counter truncated to 32 bits, and close the sink.  The second
component is the final on-disk file contents (none when no file was
configured).  The av_freep of chstats is memory management only and is not
modelled. -/
def uninit (s : WaveFormDataContext) :
    WaveFormDataContext × Option (List ℕ) :=
  let s1 := if s.window_pos ≠ 0 then finish_block s else s
  match s1.avio_context with
  | none => ({ s1 with avio_context := none }, none)
  | some f =>
      let f1 := avio_wl32 { f with pos := 16 } s1.total_blocks
      ({ s1 with avio_context := none }, some f1.bytes)

/-- Modelled from the spec: the summed-output variant of block completion
(spec section 4.3 case (b)), present only in the second near-duplicate
source variant of the filter (spec section 2), which is not under src/.
Per the spec: accumulate min_sum += channel.min and max_sum += channel.max
across all channels, then emit exactly one point using the arithmetic mean
(sum / channel_count) after the channel loop; reset every accumulator to
(0, 0) regardless of mode and count the completed window once. -/
def finish_block_summed (s : WaveFormDataContext) : WaveFormDataContext :=
  let min_sum := ((List.range s.nb_channels).map
    (fun c => (s.chstats.getD c ⟨0, 0⟩).min)).sum
  let max_sum := ((List.range s.nb_channels).map
    (fun c => (s.chstats.getD c ⟨0, 0⟩).max)).sum
  let s1 := write_data_point s (min_sum / s.nb_channels) (max_sum / s.nb_channels)
  { s1 with
    chstats := List.replicate s1.nb_channels ⟨0, 0⟩
    window_pos := 0
    total_blocks := s1.total_blocks + 1 }

/-- Drop the sink from a context: the state a run with no file option
configured keeps. -/
def strip (s : WaveFormDataContext) : WaveFormDataContext :=
  { s with avio_context := none }

/-! Shared concrete test fixtures: a mono 16-bit stream with sample_rate 1
and a window length option of 4 seconds, so tc_samples = 4, with a file
configured. -/

/-- Concrete configured context: mono, 16 bit, sample rate 1, window W = 4
samples, file sink open (20-byte header already written). -/
def testCtx : WaveFormDataContext :=
  config_output (init 4 OutputBits.bits16 true) 1 1

/-- A planar mono frame holding the given samples. -/
def planarFrame (l : List ℚ) : AVFrame :=
  ⟨l.length, SampleFmt.fltp, fun _ i => l.getD i 0⟩

/-- An interleaved mono frame holding the given samples. -/
def fltFrame (l : List ℚ) : AVFrame :=
  ⟨l.length, SampleFmt.flt, fun _ i => l.getD i 0⟩

/-! Helper lemmas: projections of the state operations. -/

/-- A projection that every fold step leaves unchanged is unchanged by the
whole fold. -/
theorem foldl_inv {α β γ : Type _} (f : α → β) (g : α → γ → α)
    (h : ∀ a c, f (g a c) = f a) :
    ∀ (l : List γ) (a : α), f (l.foldl g a) = f a := by
  intro l
  induction l with
  | nil => intro a; rfl
  | cons c t ih => intro a; rw [List.foldl_cons, ih, h]

/-- A projection that commutes with each fold step commutes with the whole
fold. -/
theorem foldl_comm_proj {α β γ : Type _} (f : α → β) (g : α → γ → α)
    (g2 : β → γ → β) (h : ∀ a c, f (g a c) = g2 (f a) c) :
    ∀ (l : List γ) (a : α), f (l.foldl g a) = l.foldl g2 (f a) := by
  intro l
  induction l with
  | nil => intro a; rfl
  | cons c t ih => intro a; rw [List.foldl_cons, ih, h]; rfl

theorem write_data_point_chstats (s : WaveFormDataContext) (mn mx : ℚ) :
    (write_data_point s mn mx).chstats = s.chstats := by
  unfold write_data_point
  rcases s.avio_context with _ | f
  · rfl
  · rcases s.output_bits with _ | _ <;> rfl

theorem write_data_point_window_pos (s : WaveFormDataContext) (mn mx : ℚ) :
    (write_data_point s mn mx).window_pos = s.window_pos := by
  unfold write_data_point
  rcases s.avio_context with _ | f
  · rfl
  · rcases s.output_bits with _ | _ <;> rfl

theorem write_data_point_total_blocks (s : WaveFormDataContext) (mn mx : ℚ) :
    (write_data_point s mn mx).total_blocks = s.total_blocks := by
  unfold write_data_point
  rcases s.avio_context with _ | f
  · rfl
  · rcases s.output_bits with _ | _ <;> rfl

theorem write_data_point_nb_channels (s : WaveFormDataContext) (mn mx : ℚ) :
    (write_data_point s mn mx).nb_channels = s.nb_channels := by
  unfold write_data_point
  rcases s.avio_context with _ | f
  · rfl
  · rcases s.output_bits with _ | _ <;> rfl

/-- Writing at the end of the buffer appends. -/
theorem avio_write_append (f : AvioFile) (bs : List ℕ)
    (hpos : f.pos = f.bytes.length) :
    avio_write f bs = ⟨f.bytes ++ bs, f.bytes.length + bs.length⟩ := by
  unfold avio_write writeBytesAt
  rw [hpos]
  ext : 1
  · simp [List.drop_eq_nil_of_le]
  · rfl

/-- Setting the first n positions of a list to z yields replicate n z
followed by the untouched tail. -/
theorem range_foldl_set {α : Type _} (z : α) :
    ∀ (n : ℕ) (l : List α), n ≤ l.length →
      (List.range n).foldl (fun t c => t.set c z) l =
        List.replicate n z ++ l.drop n := by
  intro n
  induction n with
  | zero => intro l _; simp
  | succ m ih =>
      intro l hl
      rw [List.range_succ, List.foldl_append, ih l (Nat.le_of_succ_le hl)]
      have hm : m < l.length := hl
      have hdrop : l.drop m = l[m] :: l.drop (m + 1) :=
        List.drop_eq_getElem_cons hm
      have hset : (List.replicate m z ++ l.drop m).set m z =
          List.replicate m z ++ z :: l.drop (m + 1) := by
        rw [hdrop]
        rw [List.set_append_right _ _ (by simp)]
        simp only [List.length_replicate, Nat.sub_self, List.set_cons_zero]
      simp only [List.foldl_cons, List.foldl_nil, hset]
      rw [List.replicate_succ' m z, List.append_assoc]
      rfl

theorem finish_block_window_pos (s : WaveFormDataContext) :
    (finish_block s).window_pos = 0 := rfl

theorem finish_block_total_blocks (s : WaveFormDataContext) :
    (finish_block s).total_blocks = s.total_blocks + 1 := by
  unfold finish_block
  have h := foldl_inv (fun t : WaveFormDataContext => t.total_blocks)
    (fun t c =>
      let p := t.chstats.getD c ⟨0, 0⟩
      let t1 := write_data_point t p.min p.max
      { t1 with chstats := t1.chstats.set c ⟨0, 0⟩ })
    (fun t c => write_data_point_total_blocks t _ _)
    (List.range s.nb_channels) s
  simpa using h

theorem finish_block_chstats (s : WaveFormDataContext)
    (h : s.chstats.length = s.nb_channels) :
    (finish_block s).chstats = List.replicate s.nb_channels ⟨0, 0⟩ := by
  unfold finish_block
  have hc := foldl_comm_proj (fun t : WaveFormDataContext => t.chstats)
    (fun t c =>
      let p := t.chstats.getD c ⟨0, 0⟩
      let t1 := write_data_point t p.min p.max
      { t1 with chstats := t1.chstats.set c ⟨0, 0⟩ })
    (fun l c => l.set c ⟨0, 0⟩)
    (fun t c => by simp [write_data_point_chstats])
    (List.range s.nb_channels) s
  have := range_foldl_set (⟨0, 0⟩ : ChannelStats) s.nb_channels s.chstats
    (le_of_eq h.symm)
  simp only [hc, this]
  rw [← h, List.drop_length, List.append_nil]

/-- C10: filter_frame is a pass-through on the audio path: it forwards the
identical input frame (sample data included) to the output link, for every
state and every frame, regardless of windowing or file output. -/
theorem c10_filter_frame_forwards_identical_frame
    (s : WaveFormDataContext) (buf : AVFrame) :
    (filter_frame s buf).2 = buf := rfl

/-- C8: every block completion resets all channel accumulators to
(min = 0, max = 0), resets window_pos to 0, and increments the total block
counter by exactly 1 — once per completed window, not once per channel,
for every channel count and output mode. -/
theorem c8_finish_block_resets_and_counts_once (s : WaveFormDataContext)
    (h : s.chstats.length = s.nb_channels) :
    (finish_block s).window_pos = 0 ∧
    (finish_block s).total_blocks = s.total_blocks + 1 ∧
    (finish_block s).chstats = List.replicate s.nb_channels ⟨0, 0⟩ :=
  ⟨finish_block_window_pos s, finish_block_total_blocks s,
    finish_block_chstats s h⟩

/-- Witness for C8 at a concrete two-channel 8-bit state with nonzero
accumulators, window position and counter. -/
theorem c8_witness :
    (finish_block ⟨3, OutputBits.bits8, none, [⟨-1/2, 1/4⟩, ⟨-1, 1⟩], 2, 7, 5, 11⟩).window_pos = 0 ∧
    (finish_block ⟨3, OutputBits.bits8, none, [⟨-1/2, 1/4⟩, ⟨-1, 1⟩], 2, 7, 5, 11⟩).total_blocks = 11 + 1 ∧
    (finish_block ⟨3, OutputBits.bits8, none, [⟨-1/2, 1/4⟩, ⟨-1, 1⟩], 2, 7, 5, 11⟩).chstats = List.replicate 2 ⟨0, 0⟩ :=
  c8_finish_block_resets_and_counts_once
    ⟨3, OutputBits.bits8, none, [⟨-1/2, 1/4⟩, ⟨-1, 1⟩], 2, 7, 5, 11⟩ (by decide)

/-- The max component of update_stat follows the strict comparison alone. -/
theorem update_stat_max_eq (p : ChannelStats) (x : ℚ) :
    (update_stat p x).max = if p.max < x then x else p.max := by
  unfold update_stat
  by_cases h1 : x > p.max <;> by_cases h2 : x < p.min <;> simp [h1, h2]

/-- The min component of update_stat follows the strict comparison alone. -/
theorem update_stat_min_eq (p : ChannelStats) (x : ℚ) :
    (update_stat p x).min = if x < p.min then x else p.min := by
  unfold update_stat
  by_cases h1 : x > p.max <;> by_cases h2 : x < p.min <;> simp [h1, h2]

/-- C9: because accumulators start at (0, 0) and update only on strict
comparison, folding update_stat over a window whose samples are all strictly
negative leaves max = 0 (so the window emits max = 0), and over samples all
strictly positive leaves min = 0. -/
theorem c9_zero_initialized_accumulator_sentinel :
    (∀ l : List ℚ, (∀ x ∈ l, x < 0) →
      (l.foldl update_stat ⟨0, 0⟩).max = 0) ∧
    (∀ l : List ℚ, (∀ x ∈ l, 0 < x) →
      (l.foldl update_stat ⟨0, 0⟩).min = 0) := by
  have hneg : ∀ (l : List ℚ) (p : ChannelStats), p.max = 0 →
      (∀ x ∈ l, x < 0) → (l.foldl update_stat p).max = 0 := by
    intro l
    induction l with
    | nil => intro p hp _; exact hp
    | cons x t ih =>
        intro p hp hl
        rw [List.foldl_cons]
        refine ih _ ?_ (fun y hy => hl y (List.mem_cons_of_mem x hy))
        have hx : x < 0 := hl x (List.mem_cons_self x t)
        rw [update_stat_max_eq, hp, if_neg (not_lt.mpr hx.le)]
  have hpos : ∀ (l : List ℚ) (p : ChannelStats), p.min = 0 →
      (∀ x ∈ l, 0 < x) → (l.foldl update_stat p).min = 0 := by
    intro l
    induction l with
    | nil => intro p hp _; exact hp
    | cons x t ih =>
        intro p hp hl
        rw [List.foldl_cons]
        refine ih _ ?_ (fun y hy => hl y (List.mem_cons_of_mem x hy))
        have hx : 0 < x := hl x (List.mem_cons_self x t)
        rw [update_stat_min_eq, hp, if_neg (not_lt.mpr hx.le)]
  exact ⟨fun l h => hneg l ⟨0, 0⟩ rfl h, fun l h => hpos l ⟨0, 0⟩ rfl h⟩

/-- Witness for C9 at concrete all-negative and all-positive windows. -/
theorem c9_witness :
    (([-1/2, -3/4, -1/8] : List ℚ).foldl update_stat ⟨0, 0⟩).max = 0 ∧
    (([1/2, 3/4, 1/8] : List ℚ).foldl update_stat ⟨0, 0⟩).min = 0 :=
  ⟨c9_zero_initialized_accumulator_sentinel.1 [-1/2, -3/4, -1/8]
      (by with_unfolding_all decide),
   c9_zero_initialized_accumulator_sentinel.2 [1/2, 3/4, 1/8]
      (by with_unfolding_all decide)⟩

set_option maxRecDepth 10000

/-- C1 (refuted, code bug): for planar input the window accumulation state
does NOT persist across consume calls.  With window length W = 4, pushing
two consecutive planar buffers of W/2 = 2 frames completes no window at all
(the planar loop restarts its chunking at each buffer and overwrites
window_pos, which stays 2), while a single planar buffer of W = 4 frames
with the same sample values completes exactly one window; the same split
stream delivered interleaved also completes exactly one window and reaches
the exact state of the single-buffer planar run. -/
theorem c1_planar_split_buffer_loses_window_state :
    (runFrames testCtx [planarFrame [1/2, -1/4], planarFrame [3/4, -1/8]]).total_blocks = 0 ∧
    (runFrames testCtx [planarFrame [1/2, -1/4], planarFrame [3/4, -1/8]]).window_pos = 2 ∧
    (runFrames testCtx [planarFrame [1/2, -1/4], planarFrame [3/4, -1/8]]).avio_context = testCtx.avio_context ∧
    (runFrames testCtx [planarFrame [1/2, -1/4, 3/4, -1/8]]).total_blocks = 1 ∧
    (runFrames testCtx [planarFrame [1/2, -1/4, 3/4, -1/8]]).window_pos = 0 ∧
    (runFrames testCtx [fltFrame [1/2, -1/4], fltFrame [3/4, -1/8]]) =
      runFrames testCtx [planarFrame [1/2, -1/4, 3/4, -1/8]] := by
  with_unfolding_all decide

/-- C2 (refuted, code bug): with window length W = 4 and N = 6 planar
samples split as 3 + 3, the stream completes 0 windows during streaming
instead of floor(6 / 4) = 1, and finalize flushes one oversized window, so
data_point_count is 1 instead of the 2 the claim requires; the identical
stream delivered interleaved completes 1 window during streaming and 2
after the finalize flush, as the claim states. -/
theorem c2_planar_split_block_count_wrong :
    (runFrames testCtx [planarFrame [1/2, -1/4, 3/4], planarFrame [-1/8, 1/4, -3/4]]).total_blocks = 0 ∧
    (uninit (runFrames testCtx [planarFrame [1/2, -1/4, 3/4], planarFrame [-1/8, 1/4, -3/4]])).1.total_blocks = 1 ∧
    (uninit (runFrames testCtx [planarFrame [1/2, -1/4, 3/4], planarFrame [-1/8, 1/4, -3/4]])).2 =
      some [1, 0, 0, 0, 0, 0, 0, 0, 1, 0, 0, 0, 4, 0, 0, 0, 1, 0, 0, 0, 1, 160, 255, 95] ∧
    (runFrames testCtx [fltFrame [1/2, -1/4, 3/4], fltFrame [-1/8, 1/4, -3/4]]).total_blocks = 1 ∧
    (uninit (runFrames testCtx [fltFrame [1/2, -1/4, 3/4], fltFrame [-1/8, 1/4, -3/4]])).1.total_blocks = 2 := by
  with_unfolding_all decide

/-- C5: quantization scales by the signed range maximum and rounds half away
from zero: min = -1.0 and max = 1.0 quantize to the integers (-32767, 32767)
at 16-bit depth and (-127, 127) at 8-bit depth, and the point is emitted as
min first then max, each as a little-endian signed integer of the configured
width (2 bytes at 16 bit, 1 byte at 8 bit). -/
theorem c5_quantization_endpoints_and_layout (s : WaveFormDataContext)
    (f : AvioFile) (hf : s.avio_context = some f)
    (hpos : f.pos = f.bytes.length) :
    int16_of (roundf ((-1 : ℚ) * 32767)) = -32767 ∧
    int16_of (roundf ((1 : ℚ) * 32767)) = 32767 ∧
    int8_of (roundf ((-1 : ℚ) * 127)) = -127 ∧
    int8_of (roundf ((1 : ℚ) * 127)) = 127 ∧
    (s.output_bits = OutputBits.bits16 →
      (write_data_point s (-1) 1).avio_context =
        some ⟨f.bytes ++ [1, 128, 255, 127], f.bytes.length + 4⟩) ∧
    (s.output_bits = OutputBits.bits8 →
      (write_data_point s (-1) 1).avio_context =
        some ⟨f.bytes ++ [129, 127], f.bytes.length + 2⟩) := by
  refine ⟨by with_unfolding_all decide, by with_unfolding_all decide,
    by with_unfolding_all decide, by with_unfolding_all decide, ?_, ?_⟩
  · intro hb
    have hA : le16Bytes (int16_of (roundf (-32767 : ℚ))) = [1, 128] := by
      with_unfolding_all decide
    have hB : le16Bytes (int16_of (roundf (32767 : ℚ))) = [255, 127] := by
      with_unfolding_all decide
    simp [write_data_point, hf, hb, avio_wl16, hA, hB, avio_write_append, hpos,
      List.append_assoc]
  · intro hb
    have hA : le8Bytes (int8_of (roundf (-127 : ℚ))) = [129] := by
      with_unfolding_all decide
    have hB : le8Bytes (int8_of (roundf (127 : ℚ))) = [127] := by
      with_unfolding_all decide
    simp [write_data_point, hf, hb, avio_w8, hA, hB, avio_write_append, hpos,
      List.append_assoc]

/-- Witness for C5: the 16-bit point (-1.0, 1.0) appended to the concrete
20-byte header of testCtx, little-endian: 0x8001 then 0x7FFF. -/
theorem c5_witness :
    (write_data_point testCtx (-1) 1).avio_context =
      some ⟨[1, 0, 0, 0, 0, 0, 0, 0, 1, 0, 0, 0, 4, 0, 0, 0, 0, 0, 0, 0,
             1, 128, 255, 127], 24⟩ := by
  with_unfolding_all
    exact (c5_quantization_endpoints_and_layout testCtx
      ⟨[1, 0, 0, 0, 0, 0, 0, 0, 1, 0, 0, 0, 4, 0, 0, 0, 0, 0, 0, 0], 20⟩
      (by with_unfolding_all decide) rfl).2.2.2.2.1 rfl

/-- C6: with a destination configured, stream configuration writes the
header as consecutive little-endian 32-bit fields in order: version (2 when
the stream has more than one channel, else 1), flags (1 when 8-bit output
else 0), sample_rate, samples_per_pixel = tc_samples derived once as
lrint(time_constant * sample_rate), the data_point_count placeholder 0, and
the channel count exactly when version = 2 (header length 24, else 20). -/
theorem c6_header_fields_order (s : WaveFormDataContext)
    (sample_rate nb_channels : ℕ) (hf : s.avio_context = some ⟨[], 0⟩) :
    (config_output s sample_rate nb_channels).avio_context =
      some ⟨le32Bytes (if 1 < nb_channels then 2 else 1) ++
            le32Bytes (if s.output_bits = OutputBits.bits8 then 1 else 0) ++
            le32Bytes sample_rate ++
            le32Bytes ((lrint (s.time_constant * sample_rate)).toNat) ++
            le32Bytes 0 ++
            (if 1 < nb_channels then le32Bytes nb_channels else []),
            if 1 < nb_channels then 24 else 20⟩ ∧
    (config_output s sample_rate nb_channels).tc_samples =
      (lrint (s.time_constant * sample_rate)).toNat := by
  constructor
  · by_cases h1 : 1 < nb_channels <;>
      by_cases h2 : s.output_bits = OutputBits.bits8 <;>
        simp [config_output, hf, h1, h2, avio_wl32, avio_write, writeBytesAt,
          le32Bytes]
  · simp [config_output, hf]

/-- Witness for C6: a stereo 16-bit stream at 44100 Hz with the default
3-second window writes the 24-byte header with version 2, flags 0,
sample_rate 44100, samples_per_pixel 132300, count placeholder 0, and
channel count 2. -/
theorem c6_witness :
    (config_output (init 3 OutputBits.bits16 true) 44100 2).avio_context =
      some ⟨[2, 0, 0, 0, 0, 0, 0, 0, 68, 172, 0, 0, 204, 4, 2, 0,
             0, 0, 0, 0, 2, 0, 0, 0], 24⟩ ∧
    (config_output (init 3 OutputBits.bits16 true) 44100 2).tc_samples =
      132300 := by
  with_unfolding_all
    exact c6_header_fields_order (init 3 OutputBits.bits16 true) 44100 2 rfl

/-- le16Bytes always yields exactly 2 bytes. -/
theorem le16Bytes_length (v : ℤ) : (le16Bytes v).length = 2 := rfl

/-- le8Bytes always yields exactly 1 byte. -/
theorem le8Bytes_length (v : ℤ) : (le8Bytes v).length = 1 := rfl

/-- le32Bytes always yields exactly 4 bytes. -/
theorem le32Bytes_length (v : ℕ) : (le32Bytes v).length = 4 := rfl

/-- C3 (spec-modelled): in summed output mode on a multichannel stream,
block completion emits exactly one quantized point per window — 4 bytes at
16-bit depth, not one point per channel — whose min value is the arithmetic
mean over all channels of the accumulated per-channel mins (sum divided by
channel count) and analogously for max; the accumulators are reset and the
window counted once. -/
theorem c3_summed_mode_emits_single_mean_point (s : WaveFormDataContext)
    (f : AvioFile) (hf : s.avio_context = some f)
    (hpos : f.pos = f.bytes.length) (hb : s.output_bits = OutputBits.bits16)
    (_hn : 1 < s.nb_channels) :
    (finish_block_summed s).avio_context =
      some ⟨f.bytes ++
        le16Bytes (int16_of (roundf
          ((((List.range s.nb_channels).map
              (fun c => (s.chstats.getD c ⟨0, 0⟩).min)).sum / s.nb_channels)
            * 32767))) ++
        le16Bytes (int16_of (roundf
          ((((List.range s.nb_channels).map
              (fun c => (s.chstats.getD c ⟨0, 0⟩).max)).sum / s.nb_channels)
            * 32767))),
        f.bytes.length + 4⟩ ∧
    (finish_block_summed s).total_blocks = s.total_blocks + 1 ∧
    (finish_block_summed s).window_pos = 0 ∧
    (finish_block_summed s).chstats = List.replicate s.nb_channels ⟨0, 0⟩ := by
  refine ⟨?_, ?_, ?_, ?_⟩
  · simp [finish_block_summed, write_data_point, hf, hb, avio_wl16,
      avio_write_append, hpos, le16Bytes_length, List.append_assoc]
  · simp [finish_block_summed, write_data_point_total_blocks]
  · rfl
  · simp [finish_block_summed, write_data_point_nb_channels]

/-- Witness for C3: two channels with accumulated (min, max) = (0.3, 0.3)
and (-0.2, -0.2); the single emitted summed point quantizes
(0.3 + -0.2) / 2 = 0.05 to 1638 = 0x0666 for both min and max. -/
theorem c3_witness :
    (finish_block_summed
      ⟨3, OutputBits.bits16, some ⟨[], 0⟩, [⟨3/10, 3/10⟩, ⟨-1/5, -1/5⟩],
        2, 4, 4, 0⟩).avio_context =
      some ⟨[102, 6, 102, 6], 4⟩ ∧
    (finish_block_summed
      ⟨3, OutputBits.bits16, some ⟨[], 0⟩, [⟨3/10, 3/10⟩, ⟨-1/5, -1/5⟩],
        2, 4, 4, 0⟩).total_blocks = 0 + 1 ∧
    (finish_block_summed
      ⟨3, OutputBits.bits16, some ⟨[], 0⟩, [⟨3/10, 3/10⟩, ⟨-1/5, -1/5⟩],
        2, 4, 4, 0⟩).window_pos = 0 ∧
    (finish_block_summed
      ⟨3, OutputBits.bits16, some ⟨[], 0⟩, [⟨3/10, 3/10⟩, ⟨-1/5, -1/5⟩],
        2, 4, 4, 0⟩).chstats = List.replicate 2 ⟨0, 0⟩ := by
  with_unfolding_all
    exact c3_summed_mode_emits_single_mean_point
      ⟨3, OutputBits.bits16, some ⟨[], 0⟩, [⟨3/10, 3/10⟩, ⟨-1/5, -1/5⟩],
        2, 4, 4, 0⟩ ⟨[], 0⟩ rfl rfl rfl (by decide)

/-- avio_wl32 depends only on the low 32 bits of its argument: the write
truncates the counter modulo 2 ^ 32. -/
theorem le32Bytes_mod (v : ℕ) : le32Bytes (v % 2 ^ 32) = le32Bytes v := by
  unfold le32Bytes
  simp only [List.cons.injEq, and_true]
  refine ⟨?_, ?_, ?_, ?_⟩ <;> omega

/-- C4: finalize patches the data_point_count field exactly once: after the
partial-window flush wrote the last peak bytes (post-flush file g), it seeks
to byte offset 16, overwrites exactly 4 bytes there with the little-endian
32-bit encoding of the block counter modulo 2 ^ 32, leaves every other byte
of the file unchanged (same total length), and closes the sink. -/
theorem c4_finalize_patches_count_field (s : WaveFormDataContext)
    (g : AvioFile)
    (hg : (if s.window_pos ≠ 0 then finish_block s else s).avio_context =
      some g)
    (hlen : 20 ≤ g.bytes.length) :
    (uninit s).2 =
      some (g.bytes.take 16 ++
        le32Bytes
          ((if s.window_pos ≠ 0 then finish_block s else s).total_blocks
            % 2 ^ 32) ++
        g.bytes.drop 20) ∧
    (g.bytes.take 16 ++
        le32Bytes
          ((if s.window_pos ≠ 0 then finish_block s else s).total_blocks
            % 2 ^ 32) ++
        g.bytes.drop 20).length = g.bytes.length ∧
    (uninit s).1.avio_context = none := by
  refine ⟨?_, ?_, ?_⟩
  · rw [le32Bytes_mod]
    simp only [uninit, hg]
    simp [avio_wl32, avio_write, writeBytesAt, le32Bytes_length]
  · simp only [List.length_append, List.length_take, List.length_drop,
      le32Bytes_length]
    omega
  · simp only [uninit, hg]

/-- Witness for C4: a stream of one planar sample (0.5) under testCtx; the
finalize flush appends the point bytes [0, 0, 0, 64] after the 20-byte
header, then the count field at offset 16 is overwritten with 1. -/
theorem c4_witness :
    (uninit (runFrames testCtx [planarFrame [1/2]])).2 =
      some [1, 0, 0, 0, 0, 0, 0, 0, 1, 0, 0, 0, 4, 0, 0, 0, 1, 0, 0, 0,
            0, 0, 0, 64] ∧
    (([1, 0, 0, 0, 0, 0, 0, 0, 1, 0, 0, 0, 4, 0, 0, 0, 0, 0, 0, 0,
       0, 0, 0, 64] : List ℕ).take 16 ++ le32Bytes 1 ++
     ([1, 0, 0, 0, 0, 0, 0, 0, 1, 0, 0, 0, 4, 0, 0, 0, 0, 0, 0, 0,
       0, 0, 0, 64] : List ℕ).drop 20).length = 24 ∧
    (uninit (runFrames testCtx [planarFrame [1/2]])).1.avio_context = none := by
  with_unfolding_all
    exact c4_finalize_patches_count_field (runFrames testCtx [planarFrame [1/2]])
      ⟨[1, 0, 0, 0, 0, 0, 0, 0, 1, 0, 0, 0, 4, 0, 0, 0, 0, 0, 0, 0,
        0, 0, 0, 64], 24⟩
      (by with_unfolding_all decide) (by decide)

theorem write_data_point_tc_samples (s : WaveFormDataContext) (mn mx : ℚ) :
    (write_data_point s mn mx).tc_samples = s.tc_samples := by
  unfold write_data_point
  rcases s.avio_context with _ | f
  · rfl
  · rcases s.output_bits with _ | _ <;> rfl

theorem write_data_point_time_constant (s : WaveFormDataContext) (mn mx : ℚ) :
    (write_data_point s mn mx).time_constant = s.time_constant := by
  unfold write_data_point
  rcases s.avio_context with _ | f
  · rfl
  · rcases s.output_bits with _ | _ <;> rfl

theorem write_data_point_output_bits (s : WaveFormDataContext) (mn mx : ℚ) :
    (write_data_point s mn mx).output_bits = s.output_bits := by
  unfold write_data_point
  rcases s.avio_context with _ | f
  · rfl
  · rcases s.output_bits with _ | _ <;> rfl

theorem strip_time_constant (s : WaveFormDataContext) :
    (strip s).time_constant = s.time_constant := rfl

theorem strip_output_bits (s : WaveFormDataContext) :
    (strip s).output_bits = s.output_bits := rfl

theorem strip_avio_context (s : WaveFormDataContext) :
    (strip s).avio_context = none := rfl

theorem strip_chstats (s : WaveFormDataContext) :
    (strip s).chstats = s.chstats := rfl

theorem strip_nb_channels (s : WaveFormDataContext) :
    (strip s).nb_channels = s.nb_channels := rfl

theorem strip_tc_samples (s : WaveFormDataContext) :
    (strip s).tc_samples = s.tc_samples := rfl

theorem strip_window_pos (s : WaveFormDataContext) :
    (strip s).window_pos = s.window_pos := rfl

theorem strip_total_blocks (s : WaveFormDataContext) :
    (strip s).total_blocks = s.total_blocks := rfl

theorem write_data_point_strip (s : WaveFormDataContext) (mn mx : ℚ) :
    write_data_point (strip s) mn mx = strip s := rfl

theorem strip_write_data_point (s : WaveFormDataContext) (mn mx : ℚ) :
    strip (write_data_point s mn mx) = strip s := by
  apply WaveFormDataContext.ext <;>
    simp [strip_time_constant, strip_output_bits, strip_avio_context,
      strip_chstats, strip_nb_channels, strip_tc_samples, strip_window_pos,
      strip_total_blocks, write_data_point_chstats,
      write_data_point_time_constant, write_data_point_output_bits,
      write_data_point_nb_channels, write_data_point_tc_samples,
      write_data_point_window_pos, write_data_point_total_blocks]

theorem strip_finish_block (s : WaveFormDataContext) :
    strip (finish_block s) = finish_block (strip s) := by
  unfold finish_block
  have hcomm : ∀ (t : WaveFormDataContext) (c : ℕ),
      strip (let p := t.chstats.getD c ⟨0, 0⟩
             let t1 := write_data_point t p.min p.max
             { t1 with chstats := t1.chstats.set c ⟨0, 0⟩ }) =
      (let p := (strip t).chstats.getD c ⟨0, 0⟩
       let t1 := write_data_point (strip t) p.min p.max
       { t1 with chstats := t1.chstats.set c ⟨0, 0⟩ }) := by
    intro t c
    apply WaveFormDataContext.ext <;>
      simp [write_data_point_strip, strip_time_constant, strip_output_bits,
        strip_avio_context, strip_chstats, strip_nb_channels,
        strip_tc_samples, strip_window_pos, strip_total_blocks,
        write_data_point_chstats, write_data_point_time_constant,
        write_data_point_output_bits, write_data_point_nb_channels,
        write_data_point_tc_samples, write_data_point_window_pos,
        write_data_point_total_blocks]
  have h := foldl_comm_proj strip
    (fun t c =>
      let p := t.chstats.getD c ⟨0, 0⟩
      let t1 := write_data_point t p.min p.max
      { t1 with chstats := t1.chstats.set c ⟨0, 0⟩ })
    (fun t c =>
      let p := t.chstats.getD c ⟨0, 0⟩
      let t1 := write_data_point t p.min p.max
      { t1 with chstats := t1.chstats.set c ⟨0, 0⟩ })
    hcomm (List.range s.nb_channels) s
  simp only [strip_nb_channels]
  rw [← h]
  rfl

theorem strip_planar_loop (channels nb : ℕ) (data : ℕ → ℕ → ℚ) :
    ∀ (fuel proc : ℕ) (s : WaveFormDataContext),
      strip (planar_loop channels nb data fuel proc s) =
        planar_loop channels nb data fuel proc (strip s) := by
  intro fuel
  induction fuel with
  | zero => intro proc s; rfl
  | succ m ih =>
      intro proc s
      simp only [planar_loop]
      by_cases hp : proc < nb
      · simp only [if_pos hp, strip_tc_samples]
        have hfold := foldl_comm_proj strip
          (fun t c =>
            let p := ((List.range' proc (min (proc + s.tc_samples) nb - proc)).map
              (data c)).foldl update_stat (t.chstats.getD c ⟨0, 0⟩)
            { t with chstats := t.chstats.set c p })
          (fun t c =>
            let p := ((List.range' proc (min (proc + s.tc_samples) nb - proc)).map
              (data c)).foldl update_stat (t.chstats.getD c ⟨0, 0⟩)
            { t with chstats := t.chstats.set c p })
          (fun t c => rfl) (List.range channels) s
        rw [ih, apply_ite strip, strip_finish_block, ← hfold]
        rfl
      · simp only [if_neg hp]

theorem strip_filter_frame (s : WaveFormDataContext) (buf : AVFrame) :
    strip ((filter_frame s buf).1) = (filter_frame (strip s) buf).1 := by
  unfold filter_frame
  rcases hfmt : buf.format with _ | _
  · simp only [strip_nb_channels]
    exact strip_planar_loop s.nb_channels buf.nb_samples buf.data
      (buf.nb_samples + 1) 0 s
  · simp only [strip_nb_channels]
    have hcomm : ∀ (t : WaveFormDataContext) (i : ℕ),
        strip (let t1 := (List.range s.nb_channels).foldl (fun u c =>
                 let p := update_stat (u.chstats.getD c ⟨0, 0⟩)
                   (buf.data 0 (i * s.nb_channels + c))
                 { u with chstats := u.chstats.set c p }) t
               let t2 := { t1 with window_pos := t1.window_pos + 1 }
               if t2.window_pos = t2.tc_samples then finish_block t2 else t2) =
        (let t1 := (List.range s.nb_channels).foldl (fun u c =>
           let p := update_stat (u.chstats.getD c ⟨0, 0⟩)
             (buf.data 0 (i * s.nb_channels + c))
           { u with chstats := u.chstats.set c p }) (strip t)
         let t2 := { t1 with window_pos := t1.window_pos + 1 }
         if t2.window_pos = t2.tc_samples then finish_block t2 else t2) := by
      intro t i
      have hfoldU := foldl_comm_proj strip
        (fun u c =>
          let p := update_stat (u.chstats.getD c ⟨0, 0⟩)
            (buf.data 0 (i * s.nb_channels + c))
          { u with chstats := u.chstats.set c p })
        (fun u c =>
          let p := update_stat (u.chstats.getD c ⟨0, 0⟩)
            (buf.data 0 (i * s.nb_channels + c))
          { u with chstats := u.chstats.set c p })
        (fun u c => rfl) (List.range s.nb_channels) t
      rw [apply_ite strip, strip_finish_block, ← hfoldU]
      rfl
    exact foldl_comm_proj strip _ _ hcomm (List.range buf.nb_samples) s

theorem strip_runFrames (s : WaveFormDataContext) (frames : List AVFrame) :
    strip (runFrames s frames) = runFrames (strip s) frames := by
  unfold runFrames
  exact foldl_comm_proj strip _ _ (fun t buf => strip_filter_frame t buf)
    frames s

theorem strip_config_output (s : WaveFormDataContext) (rate nb : ℕ) :
    strip (config_output s rate nb) = config_output (strip s) rate nb := by
  unfold config_output
  rcases h : s.avio_context with _ | f <;> simp [h] <;> rfl

theorem strip_flush (s : WaveFormDataContext) :
    (if (strip s).window_pos ≠ 0 then finish_block (strip s) else strip s) =
      strip (if s.window_pos ≠ 0 then finish_block s else s) := by
  rw [apply_ite strip, strip_finish_block, strip_window_pos]

theorem strip_uninit (s : WaveFormDataContext) :
    (uninit (strip s)).1 = (uninit s).1 ∧ (uninit (strip s)).2 = none := by
  constructor
  · rcases h : (if s.window_pos ≠ 0 then finish_block s else s).avio_context
      with _ | f
    · simp only [uninit, strip_flush, strip_avio_context, h]
      rfl
    · simp only [uninit, strip_flush, strip_avio_context, h]
      rfl
  · simp only [uninit, strip_flush, strip_avio_context]

/-- C7: running the pipeline with no destination configured produces no
bytes (the sink stays absent through every consume call and finalize), yet
yields exactly the same accumulator states, window position, and total
block count after every consume call (the frame list is universally
quantified, so every prefix of a stream is covered) and the same final
state at finalize as the run with a destination configured on the same
input. -/
theorem c7_no_sink_identical_observables (tc : ℚ) (bits : OutputBits) (rate nb : ℕ)
    (frames : List AVFrame) :
    (runFrames (config_output (init tc bits false) rate nb) frames).chstats =
      (runFrames (config_output (init tc bits true) rate nb) frames).chstats ∧
    (runFrames (config_output (init tc bits false) rate nb) frames).window_pos =
      (runFrames (config_output (init tc bits true) rate nb) frames).window_pos ∧
    (runFrames (config_output (init tc bits false) rate nb) frames).total_blocks =
      (runFrames (config_output (init tc bits true) rate nb) frames).total_blocks ∧
    (runFrames (config_output (init tc bits false) rate nb) frames).avio_context =
      none ∧
    (uninit (runFrames (config_output (init tc bits false) rate nb) frames)).1 =
      (uninit (runFrames (config_output (init tc bits true) rate nb) frames)).1 ∧
    (uninit (runFrames (config_output (init tc bits false) rate nb) frames)).2 =
      none := by
  have hinit : init tc bits false = strip (init tc bits true) := rfl
  have hkey : runFrames (config_output (init tc bits false) rate nb) frames =
      strip (runFrames (config_output (init tc bits true) rate nb) frames) := by
    rw [hinit, ← strip_config_output, ← strip_runFrames]
  refine ⟨?_, ?_, ?_, ?_, ?_, ?_⟩
  · rw [hkey, strip_chstats]
  · rw [hkey, strip_window_pos]
  · rw [hkey, strip_total_blocks]
  · rw [hkey, strip_avio_context]
  · rw [hkey]
    exact (strip_uninit _).1
  · rw [hkey]
    exact (strip_uninit _).2
